import Mathlib

set_option linter.unusedVariables false

/-!
Shallow embedding of the `pbcurve` bonding-curve engine (`src/curve.rs`,
`src/lib.rs`) and proofs about its operations.

Machine integers are modelled as `Nat` with explicit bounds:
`u128` values live below `U128LIM = 2^128`, the wide `U256` intermediate
type below `U256LIM = 2^256`.  Fallible Rust code (`Result<_, CurveError>`)
becomes `Except CurveError _`; `Option`-returning checked arithmetic becomes
`Option Nat`.  Rust's `/` on `u128` panics on a zero divisor; the one place
where the source divides by a caller-supplied possibly-zero value
(`avg_progess`) is therefore modelled with `Option`.
-/

def U128LIM : Nat := 2 ^ 128
def U256LIM : Nat := 2 ^ 256

inductive CurveError where
  | invalidConfig
  | outOfRange
  | zeroInput
  | exceedsPool
deriving DecidableEq

instance {ε α : Type} [DecidableEq ε] [DecidableEq α] : DecidableEq (Except ε α) :=
  fun x y =>
    match x, y with
    | .error a, .error b =>
      if h : a = b then .isTrue (by rw [h]) else .isFalse (fun he => h (by injection he))
    | .error _, .ok _ => .isFalse (fun he => by injection he)
    | .ok _, .error _ => .isFalse (fun he => by injection he)
    | .ok a, .ok b =>
      if h : a = b then .isTrue (by rw [h]) else .isFalse (fun he => h (by injection he))

/-- `mul_u256` from `src/lib.rs`: `overflowing_mul` on the 256-bit wide type;
errors with `InvalidConfig` on overflow, otherwise the exact product. -/
def mul_u256 (a b : Nat) : Except CurveError Nat :=
  if U256LIM ≤ a * b then .error .invalidConfig else .ok (a * b)

/-- `narrow_u256` from `src/lib.rs`: fails with `InvalidConfig` when any of the
high 128 bits is set, i.e. when the value is `≥ 2^128`. -/
def narrow_u256 (v : Nat) : Except CurveError Nat :=
  if U128LIM ≤ v then .error .invalidConfig else .ok v

/-- `u128::checked_add` (for operands below `2^128`). -/
def checked_add (a b : Nat) : Option Nat :=
  if U128LIM ≤ a + b then none else some (a + b)

/-- `u128::checked_sub`. -/
def checked_sub (a b : Nat) : Option Nat :=
  if b ≤ a then some (a - b) else none

/-- `u128::saturating_add`. -/
def satAdd (a b : Nat) : Nat := min (a + b) (U128LIM - 1)

/-- `u128::saturating_mul`. -/
def satMul (a b : Nat) : Nat := min (a * b) (U128LIM - 1)

structure CurveConfig where
  total_supply : Nat
  sell_amount : Nat
  vt : Nat
  mc_target_sats : Nat
deriving DecidableEq

structure CurveSnapshot where
  step : Nat
  x : Nat
  y : Nat
deriving DecidableEq

structure Curve where
  total_supply : Nat
  sell_amount : Nat
  vt : Nat
  y0 : Nat
  x0 : Nat
  k : Nat
deriving DecidableEq

/-- `Curve::new` from `src/curve.rs`. -/
def Curve.new (cfg : CurveConfig) : Except CurveError Curve :=
  if cfg.total_supply = 0 ∨ cfg.sell_amount = 0 ∨ cfg.vt = 0 ∨ cfg.mc_target_sats = 0 then
    .error .invalidConfig
  else
    match checked_add cfg.vt cfg.sell_amount with
    | none => .error .invalidConfig
    | some y0 =>
      match mul_u256 cfg.vt cfg.vt with
      | .error e => .error e
      | .ok vt_sq =>
        match mul_u256 cfg.mc_target_sats vt_sq with
        | .error e => .error e
        | .ok num =>
          match mul_u256 y0 cfg.total_supply with
          | .error e => .error e
          | .ok den =>
            if den = 0 then .error .invalidConfig
            else
              match narrow_u256 (num / den) with
              | .error e => .error e
              | .ok x0 =>
                if x0 = 0 then .error .invalidConfig
                else
                  match mul_u256 x0 y0 with
                  | .error e => .error e
                  | .ok kw =>
                    match narrow_u256 kw with
                    | .error e => .error e
                    | .ok k =>
                      .ok { total_supply := cfg.total_supply
                            sell_amount := cfg.sell_amount
                            vt := cfg.vt
                            y0 := y0
                            x0 := x0
                            k := k }

/-- `Curve::max_step`. -/
def Curve.max_step (c : Curve) : Nat := c.sell_amount

/-- `Curve::y_at`: `Y(step) = vt + (sell_amount - step)`. -/
def Curve.y_at (c : Curve) (step : Nat) : Except CurveError Nat :=
  if step > c.sell_amount then .error .outOfRange
  else
    match checked_sub c.sell_amount step with
    | none => .error .outOfRange
    | some remaining =>
      match checked_add c.vt remaining with
      | none => .error .invalidConfig
      | some y => .ok y

/-- `Curve::x_from_y`: `X = floor(k / Y)` (the source divides `u128`s; callers
guarantee `y > 0`, which holds for every valid step since `vt > 0`). -/
def Curve.x_from_y (c : Curve) (y : Nat) : Nat := c.k / y

/-- `Curve::snapshot`. -/
def Curve.snapshot (c : Curve) (step : Nat) : Except CurveError CurveSnapshot :=
  match c.y_at step with
  | .error e => .error e
  | .ok y => .ok { step := step, x := c.x_from_y y, y := y }

/-- `Curve::mint`. -/
def Curve.mint (c : Curve) (step sats_in : Nat) : Except CurveError (Nat × Nat) :=
  if sats_in = 0 then .error .zeroInput
  else
    match c.y_at step with
    | .error e => .error e
    | .ok y =>
      let x := c.x_from_y y
      match checked_add x sats_in with
      | none => .error .invalidConfig
      | some x2 =>
        let y_raw := c.k / x2
        let y_prime := if y_raw < c.vt then c.vt else y_raw
        let dy := y - y_prime
        let new_step := min (satAdd step dy) c.sell_amount
        .ok (new_step, dy)

/-- `Curve::asset_out_given_quote_in`. -/
def Curve.asset_out_given_quote_in (c : Curve) (step quote_in : Nat) :
    Except CurveError Nat :=
  match c.mint step quote_in with
  | .error e => .error e
  | .ok p => .ok p.2

/-- The `while lo < hi` binary-search loop inside
`Curve::quote_in_given_asset_out`. -/
def searchLoop (c : Curve) (step asset_out lo hi : Nat) : Except CurveError Nat :=
  if h : lo < hi then
    let mid := lo + (hi - lo) / 2
    match c.asset_out_given_quote_in step mid with
    | .error e => .error e
    | .ok out =>
      if out ≥ asset_out then searchLoop c step asset_out lo mid
      else searchLoop c step asset_out (mid + 1) hi
  else .ok lo
termination_by hi - lo
decreasing_by
  · omega
  · omega

/-- `Curve::quote_in_given_asset_out`. -/
def Curve.quote_in_given_asset_out (c : Curve) (step asset_out : Nat) :
    Except CurveError Nat :=
  if asset_out = 0 then .ok 0
  else
    match c.y_at step with
    | .error e => .error e
    | .ok y =>
      let max_tokens := y - c.vt
      if asset_out > max_tokens then .error .exceedsPool
      else
        let x := c.x_from_y y
        let x_final := c.k / c.vt
        match checked_sub x_final x with
        | none => .error .invalidConfig
        | some max_quote =>
          if max_quote = 0 then .error .exceedsPool
          else searchLoop c step asset_out 1 max_quote

/-- The loop body of `Curve::simulate_mints`, generalised over the current
step (`current_step` starts at 0 in the source). -/
def simGo (c : Curve) (cur : Nat) : List Nat → Except CurveError (List (Nat × Nat))
  | [] => .ok []
  | m :: ms =>
    match c.mint cur m with
    | .error e => .error e
    | .ok p =>
      match simGo c p.1 ms with
      | .error e => .error e
      | .ok rest => .ok ((cur, p.2) :: rest)

/-- `Curve::simulate_mints`. -/
def Curve.simulate_mints (c : Curve) (mints : List Nat) :
    Except CurveError (List (Nat × Nat)) :=
  simGo c 0 mints

/-- `Curve::progress_at_step`: `step.saturating_mul(100) / total_supply`. -/
def Curve.progress_at_step (c : Curve) (step : Nat) : Nat :=
  satMul step 100 / c.total_supply

/-- `Curve::avg_progess`: wrapping product and sum of the slice, then an
unguarded division by the sum.  A zero divisor makes the Rust `/` panic,
modelled as `none`. -/
def Curve.avg_progess (_c : Curve) (steps : List Nat) : Option Nat :=
  let product := steps.foldl (fun a b => a * b % U128LIM) 1
  let sum := steps.foldl (fun a b => (a + b) % U128LIM) 0
  if sum = 0 then none else some (product / sum)

/-! Concrete configurations used in witnesses and counterexamples. -/

/-- The concrete scenario from the spec (§8). -/
def cfgMain : CurveConfig :=
  { total_supply := 1000000000
    sell_amount := 800000000
    vt := 200000000
    mc_target_sats := 1000000000 }

/-- The curve produced by `Curve.new cfgMain`. -/
def curveMain : Curve :=
  { total_supply := 1000000000
    sell_amount := 800000000
    vt := 200000000
    y0 := 1000000000
    x0 := 40000000
    k := 40000000000000000 }

/-- A small valid configuration whose curve has `maxQuote = 0` at step 0. -/
def cfgSmall : CurveConfig :=
  { total_supply := 8, sell_amount := 1, vt := 4, mc_target_sats := 5 }

/-- The curve produced by `Curve.new cfgSmall`: `y0 = 5`, `x0 = 2`, `k = 10`. -/
def curveSmall : Curve :=
  { total_supply := 8, sell_amount := 1, vt := 4, y0 := 5, x0 := 2, k := 10 }

/-- A small valid configuration exhibiting the inverse-fill shortfall:
`y0 = 8`, `x0 = 1`, `k = 8`, `vt = 3`. -/
def cfgBug : CurveConfig :=
  { total_supply := 1, sell_amount := 5, vt := 3, mc_target_sats := 1 }

/-- The curve produced by `Curve.new cfgBug`. -/
def curveBug : Curve :=
  { total_supply := 1, sell_amount := 5, vt := 3, y0 := 8, x0 := 1, k := 8 }

/-- A `u128` config on which the wide product `mc_target_sats * vt^2`
overflows 256 bits while every narrower quantity fits. -/
def cfgWide : CurveConfig :=
  { total_supply := 2 ^ 128 - 1
    sell_amount := 2 ^ 128 - 2 ^ 64 - 2
    vt := 2 ^ 64 + 1
    mc_target_sats := 2 ^ 128 - 1 }

/-- The exact `x0` the source computes:
`floor(mc_target_sats * vt^2 / ((vt + sell_amount) * total_supply))`. -/
def x0Spec (cfg : CurveConfig) : Nat :=
  cfg.mc_target_sats * (cfg.vt * cfg.vt) / ((cfg.vt + cfg.sell_amount) * cfg.total_supply)

/-- The complete failure condition of `Curve::new` (for `u128`-sized fields):
a zero field, `vt + sell_amount` overflowing the amount width, the wide
product `mc_target_sats * vt^2` overflowing 256 bits, `x0` zero or not
fitting the amount width, or `x0 * (vt + sell_amount)` not fitting. -/
def newFails (cfg : CurveConfig) : Prop :=
  cfg.total_supply = 0 ∨ cfg.sell_amount = 0 ∨ cfg.vt = 0 ∨ cfg.mc_target_sats = 0 ∨
  U128LIM ≤ cfg.vt + cfg.sell_amount ∨
  U256LIM ≤ cfg.mc_target_sats * (cfg.vt * cfg.vt) ∨
  x0Spec cfg = 0 ∨ U128LIM ≤ x0Spec cfg ∨
  U128LIM ≤ x0Spec cfg * (cfg.vt + cfg.sell_amount)

instance : DecidablePred newFails := fun cfg => by
  unfold newFails
  infer_instance

/-- The spec-side description of batch simulation (§4.5): `mint` applied
sequentially, threading each returned new step into the next call and
recording `(step before this mint, assetOut)` per input, ending at `fin`. -/
inductive SimTrace (c : Curve) : Nat → List Nat → List (Nat × Nat) → Nat → Prop
  | nil (cur : Nat) : SimTrace c cur [] [] cur
  | cons {cur m ns dy fin : Nat} {ms : List Nat} {rest : List (Nat × Nat)} :
      c.mint cur m = .ok (ns, dy) → SimTrace c ns ms rest fin →
      SimTrace c cur (m :: ms) ((cur, dy) :: rest) fin

/-- Inversion on a successful `Curve.new`: the well-formedness facts every
valid curve satisfies.  `x0` is the exact floor quotient from the source. -/
theorem Curve.new_ok_inv {cfg : CurveConfig} {c : Curve} (h : Curve.new cfg = .ok c) :
    c.total_supply = cfg.total_supply ∧ c.sell_amount = cfg.sell_amount ∧ c.vt = cfg.vt ∧
    0 < c.total_supply ∧ 0 < c.sell_amount ∧ 0 < c.vt ∧
    c.y0 = c.vt + c.sell_amount ∧ c.y0 < U128LIM ∧
    0 < c.x0 ∧
    c.x0 = cfg.mc_target_sats * (cfg.vt * cfg.vt) / ((cfg.vt + cfg.sell_amount) * cfg.total_supply) ∧
    c.k = c.x0 * c.y0 ∧ c.k < U128LIM ∧
    cfg.mc_target_sats * (cfg.vt * cfg.vt) < U256LIM ∧ c.x0 < U128LIM := by
  unfold Curve.new at h
  split at h
  · exact absurd h (by simp)
  next hnz =>
    push_neg at hnz
    obtain ⟨hts, hsa, hvt, hmc⟩ := hnz
    split at h
    · exact absurd h (by simp)
    next y0 hy0 =>
      simp only [checked_add] at hy0
      split at hy0
      · exact absurd hy0 (by simp)
      next hy0fit =>
        injection hy0 with hy0
        split at h
        · exact absurd h (by simp)
        next vt_sq hvtsq =>
          simp only [mul_u256] at hvtsq
          split at hvtsq
          · exact absurd hvtsq (by simp)
          next =>
            injection hvtsq with hvtsq
            split at h
            · exact absurd h (by simp)
            next num hnum =>
              simp only [mul_u256] at hnum
              split at hnum
              · exact absurd hnum (by simp)
              next =>
                injection hnum with hnum
                split at h
                · exact absurd h (by simp)
                next den hden =>
                  simp only [mul_u256] at hden
                  split at hden
                  · exact absurd hden (by simp)
                  next =>
                    injection hden with hden
                    split at h
                    · exact absurd h (by simp)
                    next hdnz =>
                      split at h
                      · exact absurd h (by simp)
                      next x0 hx0 =>
                        simp only [narrow_u256] at hx0
                        split at hx0
                        · exact absurd hx0 (by simp)
                        next hx0fit =>
                          injection hx0 with hx0
                          split at h
                          · exact absurd h (by simp)
                          next hx0nz =>
                            split at h
                            · exact absurd h (by simp)
                            next kw hkw =>
                              simp only [mul_u256] at hkw
                              split at hkw
                              · exact absurd hkw (by simp)
                              next =>
                                injection hkw with hkw
                                split at h
                                · exact absurd h (by simp)
                                next k hk =>
                                  simp only [narrow_u256] at hk
                                  split at hk
                                  · exact absurd hk (by simp)
                                  next hkfit =>
                                    injection hk with hk
                                    injection h with h
                                    subst h
                                    refine ⟨rfl, rfl, rfl, ?_, ?_, ?_, ?_, ?_, ?_, ?_, ?_, ?_, ?_, ?_⟩
                                    all_goals simp_all
                                    all_goals omega

/-- For a valid curve and an in-range step, `y_at` returns
`vt + (sell_amount - step)`. -/
theorem Curve.y_at_ok {cfg : CurveConfig} {c : Curve} (h : Curve.new cfg = .ok c)
    {step : Nat} (hs : step ≤ c.sell_amount) :
    c.y_at step = .ok (c.vt + (c.sell_amount - step)) := by
  obtain ⟨-, -, -, -, -, -, hy0, hy0lt, -, -, -, -⟩ := Curve.new_ok_inv h
  unfold Curve.y_at
  rw [if_neg (by omega)]
  simp only [checked_sub, if_pos hs, checked_add]
  rw [if_neg (by omega)]


/-- C7: for a validly constructed curve, `y_at(step)` (and `snapshot(step)`)
fails with `OutOfRange` iff `step > sell_amount`; for `step ≤ sell_amount` it
returns `vt + (sell_amount - step)`, which is non-increasing in `step`, and
never fails with any other error. -/
theorem y_at_snapshot_contract {cfg : CurveConfig} {c : Curve}
    (h : Curve.new cfg = .ok c) (step : Nat) :
    (c.sell_amount < step →
      c.y_at step = .error .outOfRange ∧ c.snapshot step = .error .outOfRange) ∧
    (step ≤ c.sell_amount →
      c.y_at step = .ok (c.vt + (c.sell_amount - step)) ∧
      c.snapshot step = .ok
        { step := step
          x := c.k / (c.vt + (c.sell_amount - step))
          y := c.vt + (c.sell_amount - step) }) ∧
    (∀ step2, step ≤ step2 → step2 ≤ c.sell_amount →
      c.vt + (c.sell_amount - step2) ≤ c.vt + (c.sell_amount - step)) := by
  refine ⟨fun hgt => ?_, fun hle => ?_, fun step2 h1 h2 => by omega⟩
  · have hy : c.y_at step = .error .outOfRange := by
      unfold Curve.y_at
      rw [if_pos hgt]
    exact ⟨hy, by unfold Curve.snapshot; rw [hy]⟩
  · have hy := Curve.y_at_ok h hle
    refine ⟨hy, ?_⟩
    unfold Curve.snapshot
    rw [hy]
    rfl

/-- C5: for a validly constructed curve, `x0 * y0 == k` holds exactly, and for
every in-range step, `xFromY(yAt(step)) * yAt(step) ≤ k`. -/
theorem invariant_contract {cfg : CurveConfig} {c : Curve}
    (h : Curve.new cfg = .ok c) :
    c.k = c.x0 * c.y0 ∧
    ∀ step, step ≤ c.sell_amount →
      ∀ y, c.y_at step = .ok y → c.x_from_y y * y ≤ c.k := by
  obtain ⟨-, -, -, -, -, -, -, -, -, -, hk, -⟩ := Curve.new_ok_inv h
  exact ⟨hk, fun step _ y _ => Nat.div_mul_le_self c.k y⟩

/-- C4 (amended): for a validly constructed curve, whenever
`mint(sell_amount, q)` succeeds it returns `(sell_amount, 0)`; for `q = 0`
it instead fails with `ZeroInput`. -/
theorem mint_terminal {cfg : CurveConfig} {c : Curve}
    (h : Curve.new cfg = .ok c) :
    c.mint c.sell_amount 0 = .error .zeroInput ∧
    ∀ q p, c.mint c.sell_amount q = .ok p → p = (c.sell_amount, 0) := by
  obtain ⟨-, -, -, -, -, hvt, hy0, hy0lt, -, -, -, -⟩ := Curve.new_ok_inv h
  constructor
  · unfold Curve.mint
    rw [if_pos rfl]
  · intro q p hp
    unfold Curve.mint at hp
    split at hp
    · exact absurd hp (by simp)
    rw [Curve.y_at_ok h le_rfl] at hp
    simp only [Curve.x_from_y, checked_add] at hp
    split at hp
    · exact absurd hp (by simp)
    next y2 hfit =>
      split at hfit
      · exact absurd hfit (by simp)
      injection hfit with hfit
      subst hfit
      injection hp with hp
      subst hp
      have hdy : c.vt + (c.sell_amount - c.sell_amount) -
          (if c.k / (c.k / (c.vt + (c.sell_amount - c.sell_amount)) + q) < c.vt then c.vt
           else c.k / (c.k / (c.vt + (c.sell_amount - c.sell_amount)) + q)) = 0 := by
        split <;> omega
      rw [hdy]
      have hsat : satAdd c.sell_amount 0 = c.sell_amount := by
        unfold satAdd
        omega
      rw [hsat, min_self]

/-- C1: for a validly constructed curve and an in-range step, `mint(step, q)`
fails with `ZeroInput` iff `q = 0`; otherwise, when `x + q` fits in the
amount width (with `y = vt + (sell_amount - step)` and `x = floor(k / y)`),
it returns `assetOut = y - max(floor(k / (x + q)), vt)` (saturating at zero)
and `newStep = min(step + assetOut, sell_amount)`. -/
theorem mint_contract {cfg : CurveConfig} {c : Curve}
    (h : Curve.new cfg = .ok c) (step : Nat) (hs : step ≤ c.sell_amount) (q : Nat) :
    (c.mint step q = .error .zeroInput ↔ q = 0) ∧
    (q ≠ 0 → c.k / (c.vt + (c.sell_amount - step)) + q < U128LIM →
      c.mint step q = .ok
        (min (step + ((c.vt + (c.sell_amount - step)) -
            max (c.k / (c.k / (c.vt + (c.sell_amount - step)) + q)) c.vt)) c.sell_amount,
          (c.vt + (c.sell_amount - step)) -
            max (c.k / (c.k / (c.vt + (c.sell_amount - step)) + q)) c.vt)) := by
  obtain ⟨-, -, -, -, -, hvt, hy0, hy0lt, -, -, -, -⟩ := Curve.new_ok_inv h
  have hok : ∀ q2, q2 ≠ 0 → c.k / (c.vt + (c.sell_amount - step)) + q2 < U128LIM →
      c.mint step q2 = .ok
        (min (step + ((c.vt + (c.sell_amount - step)) -
            max (c.k / (c.k / (c.vt + (c.sell_amount - step)) + q2)) c.vt)) c.sell_amount,
          (c.vt + (c.sell_amount - step)) -
            max (c.k / (c.k / (c.vt + (c.sell_amount - step)) + q2)) c.vt) := by
    intro q2 hq hfit
    unfold Curve.mint
    rw [if_neg hq, Curve.y_at_ok h hs]
    simp only [Curve.x_from_y, checked_add]
    rw [if_neg (by omega)]
    dsimp only
    have hmax : (if c.k / (c.k / (c.vt + (c.sell_amount - step)) + q2) < c.vt then c.vt
        else c.k / (c.k / (c.vt + (c.sell_amount - step)) + q2)) =
        max (c.k / (c.k / (c.vt + (c.sell_amount - step)) + q2)) c.vt := by
      split <;> omega
    rw [hmax]
    have hdy : (c.vt + (c.sell_amount - step)) -
        max (c.k / (c.k / (c.vt + (c.sell_amount - step)) + q2)) c.vt ≤
        c.vt + (c.sell_amount - step) := by omega
    have hsat : satAdd step ((c.vt + (c.sell_amount - step)) -
        max (c.k / (c.k / (c.vt + (c.sell_amount - step)) + q2)) c.vt) =
        step + ((c.vt + (c.sell_amount - step)) -
        max (c.k / (c.k / (c.vt + (c.sell_amount - step)) + q2)) c.vt) := by
      unfold satAdd
      omega
    rw [hsat]
  constructor
  · constructor
    · intro he
      by_contra hq
      unfold Curve.mint at he
      rw [if_neg hq, Curve.y_at_ok h hs] at he
      simp only [Curve.x_from_y, checked_add] at he
      split at he
      · exact absurd he (by simp)
      next y2 hfit =>
        exact absurd he (by simp)
    · intro hq
      subst hq
      unfold Curve.mint
      rw [if_pos rfl]
  · exact hok q

/-- C6: for a validly constructed curve, in-range step and positive
`assetOut`, `quote_in_given_asset_out` returns `ExceedsPool` when
`assetOut > yAt(step) - vt`; returns `InvalidConfig` when
`floor(k/vt) - xFromY(yAt(step))` underflows; and returns `ExceedsPool`
when that `maxQuote` is zero. -/
theorem quote_errors_contract {cfg : CurveConfig} {c : Curve}
    (h : Curve.new cfg = .ok c) (step : Nat) (hs : step ≤ c.sell_amount)
    (asset_out : Nat) (ha : 0 < asset_out) :
    (c.vt + (c.sell_amount - step) - c.vt < asset_out →
      c.quote_in_given_asset_out step asset_out = .error .exceedsPool) ∧
    (c.k / c.vt < c.k / (c.vt + (c.sell_amount - step)) →
      c.quote_in_given_asset_out step asset_out = .error .invalidConfig) ∧
    (asset_out ≤ c.vt + (c.sell_amount - step) - c.vt →
      c.k / c.vt - c.k / (c.vt + (c.sell_amount - step)) = 0 →
      c.quote_in_given_asset_out step asset_out = .error .exceedsPool) := by
  obtain ⟨-, -, -, -, -, hvt, -, -, -, -, -, -⟩ := Curve.new_ok_inv h
  have hmono : c.k / (c.vt + (c.sell_amount - step)) ≤ c.k / c.vt :=
    Nat.div_le_div_left (by omega) hvt
  refine ⟨fun hgt => ?_, fun habs => absurd habs (by omega), fun hle hzero => ?_⟩
  · unfold Curve.quote_in_given_asset_out
    rw [if_neg (by omega), Curve.y_at_ok h hs]
    dsimp only
    rw [if_pos hgt]
  · unfold Curve.quote_in_given_asset_out
    rw [if_neg (by omega), Curve.y_at_ok h hs]
    dsimp only
    rw [if_neg (by omega)]
    simp only [Curve.x_from_y, checked_sub]
    rw [if_pos hmono]
    dsimp only
    rw [if_pos hzero]


/-- Products of two amount-width values stay below the wide width. -/
theorem mul_lt_wide {a b : Nat} (ha : a < U128LIM) (hb : b < U128LIM) :
    a * b < U256LIM := by
  have hsq : U128LIM * U128LIM = U256LIM := by
    unfold U128LIM U256LIM
    rw [← pow_add]
  calc a * b < U128LIM * U128LIM :=
        Nat.mul_lt_mul_of_lt_of_le ha (Nat.le_of_lt hb) (by unfold U128LIM; positivity)
    _ = U256LIM := hsq

/-- `mul_u256` only ever fails with `InvalidConfig`. -/
theorem mul_u256_error {a b : Nat} {e : CurveError} (h : mul_u256 a b = .error e) :
    e = .invalidConfig := by
  unfold mul_u256 at h
  split at h
  · injection h with h
    exact h.symm
  · exact absurd h (by simp)

/-- `narrow_u256` only ever fails with `InvalidConfig`. -/
theorem narrow_u256_error {v : Nat} {e : CurveError} (h : narrow_u256 v = .error e) :
    e = .invalidConfig := by
  unfold narrow_u256 at h
  split at h
  · injection h with h
    exact h.symm
  · exact absurd h (by simp)

/-- Every error `Curve::new` returns is `InvalidConfig`. -/
theorem Curve.new_error_invalid {cfg : CurveConfig} {e : CurveError}
    (h : Curve.new cfg = .error e) : e = .invalidConfig := by
  unfold Curve.new at h
  repeat' split at h
  all_goals
    first
    | (injection h with h; exact h.symm)
    | (injection h with h; subst h; exact mul_u256_error (by assumption))
    | (injection h with h; subst h; exact narrow_u256_error (by assumption))
    | exact Except.noConfusion h

/-- C3 (amended): for every `u128`-sized config, `Curve::new` fails with
`InvalidConfig` exactly when `newFails` holds (some field zero, `vt +
sell_amount` overflowing, the wide product `mc_target_sats * vt^2`
overflowing 256 bits, `x0` zero or not fitting, or `x0 * (vt + sell_amount)`
not fitting); otherwise it returns the curve with `y0 = vt + sell_amount`,
`x0 = x0Spec cfg` and `k = x0 * y0`. -/
theorem new_contract (cfg : CurveConfig)
    (h1 : cfg.total_supply < U128LIM) (h2 : cfg.sell_amount < U128LIM)
    (h3 : cfg.vt < U128LIM) (h4 : cfg.mc_target_sats < U128LIM) :
    (newFails cfg → Curve.new cfg = .error .invalidConfig) ∧
    (¬ newFails cfg → Curve.new cfg = .ok
      { total_supply := cfg.total_supply
        sell_amount := cfg.sell_amount
        vt := cfg.vt
        y0 := cfg.vt + cfg.sell_amount
        x0 := x0Spec cfg
        k := x0Spec cfg * (cfg.vt + cfg.sell_amount) }) := by
  constructor
  · intro hf
    match hE : Curve.new cfg with
    | .error e =>
      rw [Curve.new_error_invalid hE]
    | .ok c =>
      exfalso
      obtain ⟨hts, hsa, hvt, hpts, hpsa, hpvt, hy0, hy0lt, hx0pos, hx0f, hk, hklt,
        hnumlt, hx0lt⟩ := Curve.new_ok_inv hE
      have hx0eq : c.x0 = x0Spec cfg := by
        unfold x0Spec
        exact hx0f
      have hy0eq : c.y0 = cfg.vt + cfg.sell_amount := by omega
      rcases hf with hd | hd | hd | hd | hd | hd | hd | hd | hd
      · omega
      · omega
      · omega
      · -- a zero `mc_target_sats` would contradict a positive `x0`
        rw [hd] at hx0f
        simp at hx0f
        omega
      · omega
      · omega
      · rw [← hx0eq] at hd
        omega
      · rw [← hx0eq] at hd
        omega
      · rw [← hx0eq, ← hy0eq] at hd
        omega
  · intro hnf
    unfold newFails x0Spec at hnf
    push_neg at hnf
    obtain ⟨hts, hsa, hvt, hmc, hy0, hnum, hx0nz, hx0lt, hklt⟩ := hnf
    unfold Curve.new
    rw [if_neg (by push_neg; exact ⟨hts, hsa, hvt, hmc⟩)]
    simp only [checked_add]
    rw [if_neg (not_le.mpr hy0)]
    dsimp only
    simp only [mul_u256]
    rw [if_neg (not_le.mpr (mul_lt_wide h3 h3))]
    dsimp only
    rw [if_neg (not_le.mpr hnum)]
    dsimp only
    rw [if_neg (not_le.mpr (mul_lt_wide hy0 h1))]
    dsimp only
    rw [if_neg (mul_ne_zero (by omega) hts)]
    simp only [narrow_u256]
    rw [if_neg (not_le.mpr hx0lt)]
    dsimp only
    rw [if_neg hx0nz]
    rw [if_neg (not_le.mpr (mul_lt_wide hx0lt hy0))]
    dsimp only
    rw [if_neg (not_le.mpr hklt)]
    dsimp only
    unfold x0Spec
    rfl

/-- C9 (amended): `progress_at_step(step)` equals the exact quotient
`floor(step * 100 / total_supply)` whenever `step * 100` fits the amount
width; once `step * 100 ≥ 2^128` the product saturates to `2^128 - 1`
(lossy), and the result is `floor((2^128 - 1) / total_supply)`. -/
theorem progress_contract {cfg : CurveConfig} {c : Curve}
    (h : Curve.new cfg = .ok c) (step : Nat) :
    (step * 100 < U128LIM → c.progress_at_step step = step * 100 / c.total_supply) ∧
    (U128LIM ≤ step * 100 →
      c.progress_at_step step = (U128LIM - 1) / c.total_supply) := by
  unfold Curve.progress_at_step satMul
  constructor <;> intro hb
  · rw [min_eq_left (by omega)]
  · rw [min_eq_right (by omega)]

/-- The wrapping left fold used to model `iter().sum()` never exceeds the
exact sum plus the accumulator. -/
theorem foldl_wrap_le (l : List Nat) (a : Nat) :
    l.foldl (fun x b => (x + b) % U128LIM) a ≤ a + l.sum := by
  induction l generalizing a with
  | nil => simp
  | cons b l ih =>
    simp only [List.foldl_cons, List.sum_cons]
    calc l.foldl (fun x b => (x + b) % U128LIM) ((a + b) % U128LIM) ≤
        (a + b) % U128LIM + l.sum := ih _
      _ ≤ a + (b + l.sum) := by
        have := Nat.mod_le (a + b) U128LIM
        omega

/-- C10: `avg_progess` divides the (wrapping) product of the elements by
their (wrapping) sum without a zero check; whenever the exact element sum
is zero — in particular on the empty slice — the divisor is zero and the
Rust division panics (modelled as `none`), so a defined result requires
`sum(steps) ≠ 0`. -/
theorem avg_progess_contract {cfg : CurveConfig} {c : Curve}
    (h : Curve.new cfg = .ok c) (steps : List Nat) :
    c.avg_progess [] = none ∧
    (steps.sum = 0 → c.avg_progess steps = none) ∧
    (∀ r, c.avg_progess steps = some r → steps.sum ≠ 0) := by
  refine ⟨rfl, fun hsum => ?_, fun r hr hsum => ?_⟩
  · unfold Curve.avg_progess
    have hw := foldl_wrap_le steps 0
    rw [hsum] at hw
    rw [if_pos (by omega)]
  · unfold Curve.avg_progess at hr
    have hw := foldl_wrap_le steps 0
    rw [hsum] at hw
    rw [if_pos (by omega)] at hr
    exact absurd hr (by simp)


theorem simTrace_length {c : Curve} {cur : Nat} {ms : List Nat}
    {res : List (Nat × Nat)} {fin : Nat} (h : SimTrace c cur ms res fin) :
    res.length = ms.length := by
  induction h with
  | nil => rfl
  | cons hm ht ih => simp [ih]

theorem simGo_ok_iff {c : Curve} (ms : List Nat) :
    ∀ (cur : Nat) (res : List (Nat × Nat)),
      (simGo c cur ms = .ok res ↔ ∃ fin, SimTrace c cur ms res fin) := by
  induction ms with
  | nil =>
    intro cur res
    constructor
    · intro hok
      injection hok with hok
      subst hok
      exact ⟨cur, .nil cur⟩
    · intro ⟨fin, ht⟩
      cases ht
      rfl
  | cons m ms ih =>
    intro cur res
    constructor
    · intro hok
      unfold simGo at hok
      split at hok
      · exact absurd hok (by simp)
      next p hm =>
        split at hok
        · exact absurd hok (by simp)
        next rest hrest =>
          injection hok with hok
          subst hok
          obtain ⟨fin, ht⟩ := (ih p.1 rest).mp hrest
          exact ⟨fin, .cons (by rw [hm]) ht⟩
    · intro ⟨fin, ht⟩
      cases ht with
      | cons hm ht2 =>
        unfold simGo
        rw [hm]
        dsimp only
        rw [(ih _ _).mpr ⟨fin, ht2⟩]

theorem simGo_error_iff {c : Curve} (ms : List Nat) :
    ∀ (cur : Nat) (e : CurveError),
      (simGo c cur ms = .error e ↔
        ∃ pre m suf res mid, ms = pre ++ m :: suf ∧
          SimTrace c cur pre res mid ∧ c.mint mid m = .error e) := by
  induction ms with
  | nil =>
    intro cur e
    constructor
    · intro hok
      exact absurd hok (by simp [simGo])
    · intro ⟨pre, m, suf, res, mid, habs, _, _⟩
      exact absurd habs (by simp)
  | cons m ms ih =>
    intro cur e
    constructor
    · intro herr
      unfold simGo at herr
      split at herr
      next e2 hm =>
        injection herr with herr
        subst herr
        exact ⟨[], m, ms, [], cur, rfl, .nil cur, hm⟩
      next p hm =>
        split at herr
        next e2 hrest =>
          injection herr with herr
          subst herr
          obtain ⟨pre, m2, suf, res, mid, hsplit, ht, hfail⟩ := (ih p.1 e2).mp hrest
          exact ⟨m :: pre, m2, suf, (cur, p.2) :: res, mid, by simp [hsplit],
            .cons (by rw [hm]) ht, hfail⟩
        · exact absurd herr (by simp)
    · intro ⟨pre, m2, suf, res, mid, hsplit, ht, hfail⟩
      cases pre with
      | nil =>
        simp only [List.nil_append] at hsplit
        cases ht
        injection hsplit with hm2 hsuf
        subst hm2
        subst hsuf
        unfold simGo
        rw [hfail]
      | cons p pre2 =>
        simp only [List.cons_append] at hsplit
        injection hsplit with hm2 hsuf
        subst hm2
        subst hsuf
        cases ht with
        | cons hm ht2 =>
          unfold simGo
          rw [hm]
          dsimp only
          rw [(ih _ _).mpr ⟨pre2, m2, suf, _, mid, rfl, ht2, hfail⟩]

/-- C8: `simulate_mints` applies `mint` sequentially from step 0, threading
each returned new step into the next call; on success it returns exactly one
`(step before that mint, assetOut)` pair per input, in input order, and on
any `mint` failure it returns that error unchanged with no partial results. -/
theorem simulate_contract (c : Curve) (mints : List Nat) :
    (∀ res, c.simulate_mints mints = .ok res ↔ ∃ fin, SimTrace c 0 mints res fin) ∧
    (∀ res fin, SimTrace c 0 mints res fin → res.length = mints.length) ∧
    (∀ e, c.simulate_mints mints = .error e ↔
      ∃ pre m suf res mid, mints = pre ++ m :: suf ∧
        SimTrace c 0 pre res mid ∧ c.mint mid m = .error e) :=
  ⟨fun res => simGo_ok_iff mints 0 res,
   fun _ _ ht => simTrace_length ht,
   fun e => simGo_error_iff mints 0 e⟩

/-- C2: concrete evaluation of the inverse-fill shortfall.  For the valid
curve from `cfgBug` (`vt = 3`, `sell_amount = 5`, `x0 = 1`, `k = 8`) at
`step = 0` with `assetOut = 5`: the claim's preconditions hold
(`assetOut ≤ maxTokens = 5`, `maxQuote = 1 > 0`), yet
`quote_in_given_asset_out` returns `q = 1` whose fill is only `4 < 5`;
the true minimal quote is `2`, which lies above the search's
`maxQuote = floor(k/vt) - x` cap. -/
theorem quote_in_shortfall_bug :
    Curve.new cfgBug = .ok curveBug ∧
    5 ≤ curveBug.vt + (curveBug.sell_amount - 0) - curveBug.vt ∧
    0 < curveBug.k / curveBug.vt - curveBug.k / (curveBug.vt + (curveBug.sell_amount - 0)) ∧
    curveBug.quote_in_given_asset_out 0 5 = .ok 1 ∧
    curveBug.asset_out_given_quote_in 0 1 = .ok 4 ∧
    curveBug.asset_out_given_quote_in 0 2 = .ok 5 := by
  refine ⟨by decide, by decide, by decide, ?_, by decide, by decide⟩
  unfold Curve.quote_in_given_asset_out
  norm_num [Curve.y_at, checked_sub, checked_add, Curve.x_from_y, curveBug, U128LIM]
  rw [searchLoop]
  norm_num


theorem curveMain_ok : Curve.new cfgMain = .ok curveMain := by decide

theorem curveSmall_ok : Curve.new cfgSmall = .ok curveSmall := by decide

/-- C3 counterexample: on `cfgWide` none of the claim's failure conditions
holds — all fields are nonzero, `vt + sell_amount` fits, `x0 = 1` is nonzero
and fits, and `x0 * (vt + sell_amount)` fits — yet `Curve::new` fails with
`InvalidConfig`, because `mc_target_sats * vt^2` overflows the 256-bit wide
type. -/
theorem new_contract_counterexample :
    Curve.new cfgWide = .error .invalidConfig ∧
    cfgWide.total_supply ≠ 0 ∧ cfgWide.sell_amount ≠ 0 ∧ cfgWide.vt ≠ 0 ∧
    cfgWide.mc_target_sats ≠ 0 ∧
    cfgWide.vt + cfgWide.sell_amount < U128LIM ∧
    x0Spec cfgWide = 1 ∧
    x0Spec cfgWide * (cfgWide.vt + cfgWide.sell_amount) < U128LIM := by
  refine ⟨by decide, by decide, by decide, by decide, by decide, by decide, ?_, ?_⟩
  · decide
  · decide

/-- C3 witness: the spec's concrete scenario is accepted and produces the
advertised derived constants. -/
theorem new_contract_witness :
    Curve.new cfgMain = .ok
      { total_supply := cfgMain.total_supply
        sell_amount := cfgMain.sell_amount
        vt := cfgMain.vt
        y0 := cfgMain.vt + cfgMain.sell_amount
        x0 := x0Spec cfgMain
        k := x0Spec cfgMain * (cfgMain.vt + cfgMain.sell_amount) } :=
  (new_contract cfgMain (by decide) (by decide) (by decide) (by decide)).2 (by decide)

/-- C1 witness: `mint(0, 1000000)` on the spec's concrete curve. -/
theorem mint_contract_witness :
    curveMain.mint 0 1000000 = .ok (24390244, 24390244) := by
  have h := (mint_contract curveMain_ok 0 (by decide) 1000000).2 (by decide) (by decide)
  rw [h]
  decide

/-- C4 counterexample: the claim promises `(sell_amount, 0)` for any `q`,
but `q = 0` fails with `ZeroInput` instead. -/
theorem mint_terminal_counterexample :
    Curve.new cfgMain = .ok curveMain ∧
    curveMain.mint curveMain.sell_amount 0 = .error .zeroInput ∧
    curveMain.mint curveMain.sell_amount 0 ≠ .ok (curveMain.sell_amount, 0) := by
  refine ⟨by decide, by decide, by decide⟩

/-- C4 witness. -/
theorem mint_terminal_witness :
    curveMain.mint curveMain.sell_amount 0 = .error .zeroInput :=
  (mint_terminal curveMain_ok).1

/-- C5 witness. -/
theorem invariant_contract_witness :
    curveMain.k = curveMain.x0 * curveMain.y0 ∧
    curveMain.x_from_y 1000000000 * 1000000000 ≤ curveMain.k := by
  have h := invariant_contract curveMain_ok
  exact ⟨h.1, h.2 0 (by decide) 1000000000 (by decide)⟩

/-- C6 witness: an over-ask beyond `maxTokens` and a zero `maxQuote` both
yield `ExceedsPool`. -/
theorem quote_errors_witness :
    curveMain.quote_in_given_asset_out 0 800000001 = .error .exceedsPool ∧
    curveSmall.quote_in_given_asset_out 0 1 = .error .exceedsPool := by
  constructor
  · exact (quote_errors_contract curveMain_ok 0 (by decide) 800000001 (by decide)).1
      (by decide)
  · exact (quote_errors_contract curveSmall_ok 0 (by decide) 1 (by decide)).2.2
      (by decide) (by decide)

/-- C7 witness. -/
theorem y_at_snapshot_witness :
    curveMain.y_at 800000001 = .error .outOfRange ∧
    curveMain.y_at 3 = .ok (curveMain.vt + (curveMain.sell_amount - 3)) :=
  ⟨((y_at_snapshot_contract curveMain_ok 800000001).1 (by decide)).1,
   ((y_at_snapshot_contract curveMain_ok 3).2.1 (by decide)).1⟩

/-- C8 witness: a one-element batch on the spec's concrete curve. -/
theorem simulate_contract_witness :
    ∃ fin, SimTrace curveMain 0 [1000000] [(0, 24390244)] fin :=
  ((simulate_contract curveMain [1000000]).1 [(0, 24390244)]).mp (by decide)

/-- C9 counterexample: at `step = 2^127` the product `step * 100` saturates,
so the result differs from the exact quotient. -/
theorem progress_contract_counterexample :
    Curve.new cfgMain = .ok curveMain ∧
    curveMain.progress_at_step (2 ^ 127) ≠ 2 ^ 127 * 100 / curveMain.total_supply := by
  refine ⟨by decide, by decide⟩

/-- C9 witness. -/
theorem progress_contract_witness :
    curveMain.progress_at_step 500000000 = 500000000 * 100 / curveMain.total_supply :=
  (progress_contract curveMain_ok 500000000).1 (by decide)

/-- C10 witness. -/
theorem avg_progess_witness :
    curveMain.avg_progess [0, 0] = none ∧ curveMain.avg_progess [] = none := by
  have h := avg_progess_contract curveMain_ok [0, 0]
  exact ⟨h.2.1 (by decide), h.1⟩
